import Mathlib

/-!
Verification development for the DALGORO report-generation system.

Shallow embedding of the sequence-reservation protocol, report-number
formatter, Drive-identifier extraction, chart renderer, document-context
builder and the end-to-end generation flow, together with theorems that
settle the specification's claims against this embedding.

Conventions: Python strings are Lean `String` (lists of characters);
spreadsheet worksheets are `List (List String)` (a list of rows), with
`Option` marking a worksheet that does not exist yet; machine side
effects (template rendering, file saving, registry append, binary
downloads) are modelled by explicit success flags and oracle functions
in an environment record, and the flow returns an event trace recording
the order of externally visible effects.
-/

namespace Dalgoro

/-- Characters removed by Python `str.strip()` (ASCII whitespace). -/
def isPySpace (c : Char) : Bool :=
  c == ' ' || c == '\t' || c == '\n' || c == '\r' || c == '\x0b' || c == '\x0c'

/-- Python `str.strip()` on a character list. -/
def pyStripList (l : List Char) : List Char :=
  ((l.dropWhile isPySpace).reverse.dropWhile isPySpace).reverse

/-- Python `str.strip()` on a string. -/
def pyStrip (s : String) : String := String.mk (pyStripList s.data)

/-- Character class `[a-zA-Z0-9_-]` of the Drive-identifier patterns. -/
def isIdChar (c : Char) : Bool :=
  c.isAlpha || c.isDigit || c == '_' || c == '-'

/-- Model of `_ID_RAW.fullmatch`, the regex `^[a-zA-Z0-9_-]{20,}$`. -/
def idRawFullmatch (l : List Char) : Bool :=
  20 ≤ l.length && l.all isIdChar

/-- One attempt of the pattern `/d/([a-zA-Z0-9_-]{20,})/` anchored at the
head of the list.  The greedy group takes the maximal run of identifier
characters; regex backtracking cannot shorten it because the character
after a shorter group would be an identifier character, not `/`. -/
def tryMatchD : List Char → Option (List Char)
  | a :: b :: c :: rest =>
    if a = '/' ∧ b = 'd' ∧ c = '/' then
      let run := rest.takeWhile isIdChar
      if 20 ≤ run.length then
        match rest.dropWhile isIdChar with
        | d :: _ => if d = '/' then some run else none
        | [] => none
      else none
    else none
  | _ => none

/-- Regex `search` for the first pattern of `_ID_PATTERNS`. -/
def searchD : List Char → Option (List Char)
  | [] => none
  | c :: cs =>
    match tryMatchD (c :: cs) with
    | some r => some r
    | none => searchD cs

/-- One attempt of the pattern `[?&]id=([a-zA-Z0-9_-]{20,})` anchored at
the head of the list. -/
def tryMatchQ : List Char → Option (List Char)
  | a :: b :: c :: d :: rest =>
    if (a = '?' ∨ a = '&') ∧ b = 'i' ∧ c = 'd' ∧ d = '=' then
      let run := rest.takeWhile isIdChar
      if 20 ≤ run.length then some run else none
    else none
  | _ => none

/-- Regex `search` for the second pattern of `_ID_PATTERNS`. -/
def searchQ : List Char → Option (List Char)
  | [] => none
  | c :: cs =>
    match tryMatchQ (c :: cs) with
    | some r => some r
    | none => searchQ cs

/-- Body of `extract_id_from_url` on character lists: strip, accept a bare
identifier as-is, otherwise try the URL patterns in order, else empty. -/
def extractAux (l : List Char) : List Char :=
  let s := pyStripList l
  if s.isEmpty then []
  else if idRawFullmatch s then s
  else
    match searchD s with
    | some r => r
    | none =>
      match searchQ s with
      | some r => r
      | none => []

/-- Model of `google_drive.extract_id_from_url`. -/
def extract_id_from_url (s : String) : String :=
  String.mk (extractAux s.data)

/-- The deduplication loop of `normalize_ids`: `seen` plays the role of the
Python `set`, membership is first-seen-wins. -/
def dedupAux (seen : List String) : List String → List String
  | [] => []
  | x :: xs =>
    if x ∈ seen then dedupAux seen xs
    else x :: dedupAux (x :: seen) xs

/-- Model of `google_drive.normalize_ids`: extract an identifier from every
entry, drop the entries yielding no identifier, then deduplicate keeping
the first occurrence. -/
def normalize_ids (mixed : List String) : List String :=
  let out := (mixed.map extract_id_from_url).filter (fun s => !(s == ""))
  dedupAux [] out

/-! ## Configuration constants (from `config.py`, environment defaults) -/

def OUTPUT_DIR : String := "downloads"

def REPORTS_NUMBER_PREFIX : String := "INF"

def REPORTS_NUMBER_PAD : Nat := 5

def COLOR_CUMPLIMIENTO : String := "#2c5364"

def COLOR_PENDIENTE : String := "#203a43"

def CHART_BG : String := "white"

/-! ## Report number formatter (`google_sheets.format_report_number`) -/

/-- Python `f"{seq:0{pad}d}"` for a natural number: the decimal digits,
left-padded with zeros up to width `pad`. -/
def pyZeroPad (pad : Nat) (seq : Nat) : List Char :=
  let ds := (Nat.repr seq).data
  List.replicate (pad - ds.length) '0' ++ ds

/-- Model of `format_report_number`.  The source reads
`datetime.now().year`; the current year is an explicit argument here, so
the formatter is a pure function of its arguments and the year. -/
def format_report_number (year : Nat) (seq : Nat) (pfx : String) (pad : Nat) : String :=
  pfx ++ "-" ++ Nat.repr year ++ "-" ++ String.mk (pyZeroPad pad seq)

/-! ## Chart renderer (`report_generator.generar_grafico_cumplimiento`) -/

/-- Python `int()` truncation toward zero on a rational. -/
def pyTruncInt (q : ℚ) : Int := Int.tdiv q.num (q.den : Int)

/-- The observable output of one chart render: the two donut segment
values, their colors, the centered percentage label value, and the path
of the PNG file written to `OUTPUT_DIR`. -/
structure ChartSpec where
  valores : List ℚ
  colores : List String
  centerPct : ℚ
  file_path : String
deriving DecidableEq

/-- Model of `generar_grafico_cumplimiento`: clamp the percentage to
`[0, 100]`, chart the clamped value against its remainder, and name
the PNG file after `nombre_base` and the integer-truncated clamped
percentage. -/
def generar_grafico_cumplimiento (porcentaje : ℚ) (nombre_base : String) : ChartSpec :=
  let pct := max 0 (min 100 porcentaje)
  let pendientes := 100 - pct
  { valores := [pct, pendientes]
    colores := [COLOR_CUMPLIMIENTO, COLOR_PENDIENTE]
    centerPct := pct
    file_path := OUTPUT_DIR ++ "/" ++ nombre_base ++ "_" ++ toString (pyTruncInt pct) ++ ".png" }

/-! ## Rows and the context builder (`report_generator.build_context`) -/

/-- A spreadsheet record / Python dict: an association list from column
names to cell values; lookup returns the first binding. -/
abbrev Row := List (String × String)

/-- Binary image content. -/
abbrev Blob := List Nat

/-- Python `row.get(k, d)`. -/
def pyGet (row : Row) (k d : String) : String := (List.lookup k row).getD d

/-- Python `{**proyecto, **reporte}`: the report row's bindings override
the project row's on every shared key. -/
def mergeRows (proyecto reporte : Row) : Row := reporte ++ proyecto

/-- Parse the digit run of a decimal literal as a natural number. -/
def digitsToNat (l : List Char) : Nat :=
  l.foldl (fun acc c => acc * 10 + (c.toNat - 48)) 0

/-- Model of Python `float()` restricted to the decimal literals that the
compliance field can carry: optional sign, digits, optional fractional
part.  Anything else fails (and `_to_float_pct` then yields `0.0`). -/
def pyFloat : List Char → Option ℚ
  | [] => none
  | '+' :: rest => pyFloatUnsigned rest
  | '-' :: rest => (pyFloatUnsigned rest).map (fun q => -q)
  | l => pyFloatUnsigned l
where
  pyFloatUnsigned (l : List Char) : Option ℚ :=
    let intPart := l.takeWhile Char.isDigit
    match l.dropWhile Char.isDigit with
    | [] => if intPart.isEmpty then none else some (digitsToNat intPart)
    | '.' :: fr =>
      if fr.all Char.isDigit ∧ ¬(intPart.isEmpty ∧ fr.isEmpty) then
        some ((digitsToNat intPart : ℚ) + (digitsToNat fr : ℚ) / ((10 : ℚ) ^ fr.length))
      else none
    | _ => none

/-- Model of the inner `_to_float_pct` of `build_context`: stringify,
strip, drop every `%`, turn `,` into `.`, then parse; parse failure
yields `0.0`. -/
def to_float_pct (val : String) : ℚ :=
  let s := ((pyStripList val.data).filter (fun c => !(c == '%'))).map
    (fun c => if c = ',' then '.' else c)
  (pyFloat s).getD 0

/-- Python `f"{q:.0f}"`: round half to even to an integer. -/
def pyRoundHalfEven (q : ℚ) : Int :=
  let fl := ⌊q⌋
  let frac := q - (fl : ℚ)
  if frac > 1 / 2 then fl + 1
  else if frac < 1 / 2 then fl
  else if fl % 2 = 0 then fl else fl + 1

/-- The context mapping handed to the template engine: every textual
field of the merged row (defaulting to the empty string), the processed
images, the rendered compliance chart and the derived display
percentage. -/
structure Context where
  nombre_proyecto : String
  promotor_representante : String
  licencia_ambiental : String
  sector_productivo : String
  ubicacion_politica : String
  area : String
  id_informe : String
  fecha : String
  responsable : String
  sitio_inspeccion : String
  objetivo_visita : String
  metodologia : String
  descripcion : String
  hallazgos : String
  conformidades : String
  no_conformidades : String
  acciones_inmediatas : String
  conclusiones : String
  recomendaciones : String
  nivel_cumplimiento : String
  proyecto : String
  cliente : String
  imagenes : List Blob
  grafico_cumplimiento : ChartSpec
  porcentaje_cumplimiento : String
deriving DecidableEq

/-- Model of `build_context`.  Image re-encoding by PIL is abstracted as
the oracle `resize`; every textual field is read from the row with an
empty-string default, so the builder is total. -/
def build_context (resize : Blob → Blob) (row : Row) (images : List Blob) : Context :=
  let imgs_tpl := images.map resize
  let porcentaje := to_float_pct (pyGet row "nivel_cumplimiento" "0")
  let ruta_png := generar_grafico_cumplimiento porcentaje
    ("cumplimiento_" ++ pyGet row "id_informe" "tmp")
  { nombre_proyecto := pyGet row "nombre_proyecto" ""
    promotor_representante := pyGet row "promotor_representante" ""
    licencia_ambiental := pyGet row "licencia_ambiental" ""
    sector_productivo := pyGet row "sector_productivo" ""
    ubicacion_politica := pyGet row "ubicacion_politica" ""
    area := pyGet row "area" ""
    id_informe := pyGet row "id_informe" ""
    fecha := pyGet row "fecha" ""
    responsable := pyGet row "responsable" ""
    sitio_inspeccion := pyGet row "sitio_inspeccion" ""
    objetivo_visita := pyGet row "objetivo_visita" ""
    metodologia := pyGet row "metodologia" ""
    descripcion := pyGet row "descripcion" ""
    hallazgos := pyGet row "hallazgos" ""
    conformidades := pyGet row "conformidades" ""
    no_conformidades := pyGet row "no_conformidades" ""
    acciones_inmediatas := pyGet row "acciones_inmediatas" ""
    conclusiones := pyGet row "conclusiones" ""
    recomendaciones := pyGet row "recomendaciones" ""
    nivel_cumplimiento := pyGet row "nivel_cumplimiento" ""
    proyecto := pyGet row "proyecto" ""
    cliente := pyGet row "cliente" ""
    imagenes := imgs_tpl
    grafico_cumplimiento := ruta_png
    porcentaje_cumplimiento := toString (pyRoundHalfEven porcentaje) }

/-- Field access on the context by column name, for stating properties
uniformly over all textual fields. -/
def ctxGet (c : Context) (k : String) : String :=
  if k = "nombre_proyecto" then c.nombre_proyecto
  else if k = "promotor_representante" then c.promotor_representante
  else if k = "licencia_ambiental" then c.licencia_ambiental
  else if k = "sector_productivo" then c.sector_productivo
  else if k = "ubicacion_politica" then c.ubicacion_politica
  else if k = "area" then c.area
  else if k = "id_informe" then c.id_informe
  else if k = "fecha" then c.fecha
  else if k = "responsable" then c.responsable
  else if k = "sitio_inspeccion" then c.sitio_inspeccion
  else if k = "objetivo_visita" then c.objetivo_visita
  else if k = "metodologia" then c.metodologia
  else if k = "descripcion" then c.descripcion
  else if k = "hallazgos" then c.hallazgos
  else if k = "conformidades" then c.conformidades
  else if k = "no_conformidades" then c.no_conformidades
  else if k = "acciones_inmediatas" then c.acciones_inmediatas
  else if k = "conclusiones" then c.conclusiones
  else if k = "recomendaciones" then c.recomendaciones
  else if k = "nivel_cumplimiento" then c.nivel_cumplimiento
  else if k = "proyecto" then c.proyecto
  else if k = "cliente" then c.cliente
  else ""

/-- The textual keys `build_context` copies from the row. -/
def contextTextKeys : List String :=
  ["nombre_proyecto", "promotor_representante", "licencia_ambiental",
   "sector_productivo", "ubicacion_politica", "area", "id_informe",
   "fecha", "responsable", "sitio_inspeccion", "objetivo_visita",
   "metodologia", "descripcion", "hallazgos", "conformidades",
   "no_conformidades", "acciones_inmediatas", "conclusiones",
   "recomendaciones", "nivel_cumplimiento", "proyecto", "cliente"]

/-! ## Image downloads (`google_drive.download_images_by_ids`) -/

/-- The download loop of `download_images_by_ids`, with the download call
`_download_binary_file` abstracted as an oracle returning `none` on any
failure (the source catches every exception and returns `None`).  Besides
the collected binaries the model returns the list of identifiers for
which a download was attempted, in order, to express that every
non-empty identifier is attempted exactly once and never retried. -/
def download_images_loop (download : String → Option Blob) :
    List String → List Blob × List String
  | [] => ([], [])
  | fid :: rest =>
    if fid = "" then download_images_loop download rest
    else
      match download fid, download_images_loop download rest with
      | some data, (bs, att) => (data :: bs, fid :: att)
      | none, (bs, att) => (bs, fid :: att)

/-- Model of `download_images_by_ids`. -/
def download_images_by_ids (download : String → Option Blob)
    (file_ids : List String) : List Blob :=
  (download_images_loop download file_ids).1

/-! ## Counter sheet and sequence reservation (`google_sheets`) -/

/-- The rows of a worksheet. -/
abbrev SheetRows := List (List String)

/-- A worksheet that may not exist yet. -/
abbrev CounterState := Option SheetRows

/-- Headers of the sequence-counter sheet. -/
def SEQ_HEADERS : List String := ["timestamp", "responsable", "proyecto_id"]

/-- Model of `_open_or_create_ws` followed by `ensure_headers`: create
the sheet when absent, and write the headers into row 1 when row 1 is
empty. -/
def ensure_headers (st : CounterState) (headers : List String) : SheetRows :=
  match st.getD [] with
  | [] => [headers]
  | r :: rs => if r = [] then headers :: rs else r :: rs

/-- Model of `reserve_report_sequence`: ensure headers, append the data
row `(timestamp, responsable, proyecto_id)`, and derive the sequence
number as the resulting row count minus one.  The appended row persists
in the returned sheet even when the error is signalled, exactly as the
external sheet keeps the row when the Python exception is raised. -/
def reserve_report_sequence (st : CounterState) (ts responsable proyecto_id : String) :
    Except String Nat × SheetRows :=
  let withHeaders := ensure_headers st SEQ_HEADERS
  let rows := withHeaders ++ [[ts, responsable, proyecto_id]]
  let total_rows := rows.length
  let seq := total_rows - 1
  (if seq < 1 then Except.error "No se pudo calcular el consecutivo de informes."
   else Except.ok seq, rows)

/-- Whether an `Except` result is the error case. -/
def exceptIsError : Except String Nat → Bool
  | Except.error _ => true
  | Except.ok _ => false

/-- The counter row appended for one reservation call. -/
def rowOf (q : String × String × String) : List String := [q.1, q.2.1, q.2.2]

/-- A sequence of single-threaded reservation calls, threading the
counter sheet through; an error aborts the run. -/
def runReserves : CounterState → List (String × String × String) → List Nat × CounterState
  | st, [] => ([], st)
  | st, q :: ps =>
    match reserve_report_sequence st q.1 q.2.1 q.2.2 with
    | (Except.ok n, rows) =>
      let rest := runReserves (some rows) ps
      (n :: rest.1, rest.2)
    | (Except.error _, rows) => ([], some rows)

/-! ## Generation flow (`main.generar_desde_sheet`) -/

/-- Characters replaced by `safe_filename` (the `_INVALID_CHARS` class). -/
def isInvalidFnChar (c : Char) : Bool :=
  c == '\\' || c == '/' || c == ':' || c == '\"' || c == '*' || c == '?' ||
  c == '<' || c == '>' || c == '|'

/-- Replace every maximal run of filesystem-illegal characters with a
single underscore, as `re.sub(_INVALID_CHARS, "_", ...)` does; the flag
records whether the previous character was part of such a run. -/
def collapseInvalidAux : Bool → List Char → List Char
  | _, [] => []
  | prevBad, c :: cs =>
    if isInvalidFnChar c then
      if prevBad then collapseInvalidAux true cs
      else '_' :: collapseInvalidAux true cs
    else c :: collapseInvalidAux false cs

/-- Model of `main.safe_filename`. -/
def safe_filename (s : String) : String :=
  String.mk (pyStripList (collapseInvalidAux false s.data))

/-- Python `.replace(" ", "_")`. -/
def underscoreSpaces (s : String) : String :=
  String.mk (s.data.map (fun c => if c = ' ' then '_' else c))

/-- Python `.replace("/", "-").replace("\\", "-")` applied to the date. -/
def slashDashes (s : String) : String :=
  String.mk ((s.data.map (fun c => if c = '/' then '-' else c)).map
    (fun c => if c = '\\' then '-' else c))

/-- Python `str.split(",")` (always at least one field). -/
def splitCommaAux (cur : List Char) : List Char → List (List Char)
  | [] => [cur.reverse]
  | c :: cs =>
    if c = ',' then cur.reverse :: splitCommaAux [] cs
    else splitCommaAux (c :: cur) cs

/-- Python `s.split(",")` on strings. -/
def pySplitComma (s : String) : List String :=
  (splitCommaAux [] s.data).map String.mk

/-- Externally visible effects of one generation request, in order of
occurrence: the counter-row append of the reservation, the successful
template render, the successful document save, the Reports-table append,
and the warning printed when that append fails. -/
inductive Ev
  | reserved
  | rendered
  | saved
  | appended
  | warned
deriving DecidableEq

/-- The HTTP-level outcome of `generar_desde_sheet`. -/
inductive Resp
  | errSheets
  | errNotFound
  | errTemplate
  | errProject
  | errRender
  | errSeq
  | success (filename numero_informe : String)
deriving DecidableEq

/-- Result of one generation request: response, effect trace, and the
final state of the sequence-counter sheet. -/
structure GenResult where
  resp : Resp
  events : List Ev
  counter : CounterState
deriving DecidableEq

/-- Environment of one request: outcomes of the external collaborators.
Reading the report row may raise (`Except.error`) or find nothing;
`templateExists` is the `os.path.exists` check; `renderOk` / `saveOk` /
`appendOk` are the outcomes of `doc.render`, `doc.save` and
`append_report_entry`; `download` and `resize` are the Drive and PIL
oracles; `ts` and `year` are the wall clock. -/
structure GenEnv where
  readReport : Except String (Option Row)
  getProject : String → Option Row
  templateExists : Bool
  counter : CounterState
  ts : String
  year : Nat
  download : String → Option Blob
  resize : Blob → Blob
  renderOk : Bool
  saveOk : Bool
  appendOk : Bool

/-- The `proyecto_id` the flow reads off the report row. -/
def flowProyectoId (row_reporte : Row) : String :=
  pyStrip (pyGet row_reporte "proyecto_id" "")

/-- The project row the flow merges under the report row. -/
def flowProjRow (env : GenEnv) (row_reporte : Row) : Row :=
  if flowProyectoId row_reporte = "" then []
  else (env.getProject (flowProyectoId row_reporte)).getD []

/-- The `responsable` value used for the reservation row. -/
def flowResponsable (row : Row) : String :=
  let r := pyStrip (pyGet row "responsable" "")
  if r = "" then "SIN_RESPONSABLE" else r

/-- The output file name `{numero}_{proyecto}_{cliente}_{fecha}.docx`
built by the flow (sanitized parts; short form when all three are
empty). -/
def flowFilename (row2 : Row) (numero_informe : String) : String :=
  let nombre_base :=
    if pyGet row2 "nombre_proyecto" "" = "" then pyGet row2 "proyecto" ""
    else pyGet row2 "nombre_proyecto" ""
  let proyecto_safe := underscoreSpaces (safe_filename nombre_base)
  let cliente_safe := underscoreSpaces (safe_filename (pyGet row2 "cliente" ""))
  let fecha_safe := safe_filename (slashDashes (pyGet row2 "fecha" ""))
  if proyecto_safe = "" ∧ cliente_safe = "" ∧ fecha_safe = "" then
    numero_informe ++ ".docx"
  else
    numero_informe ++ "_" ++ proyecto_safe ++ "_" ++ cliente_safe ++ "_" ++
      fecha_safe ++ ".docx"

/-- Model of `main.generar_desde_sheet`: read the report row, resolve
images, check the template, merge the project row under the report row
(a non-empty `proyecto_id` whose project lookup finds nothing makes the
Python dict-merge raise, a 500 before the reservation), reserve the
sequence number, build the context, render and save the document, and
finally append the permanent Reports-table entry (a failure there is
only a warning). -/
def generar_desde_sheet (env : GenEnv) (id_informe : String) : GenResult :=
  match env.readReport with
  | Except.error _ => { resp := Resp.errSheets, events := [], counter := env.counter }
  | Except.ok none => { resp := Resp.errNotFound, events := [], counter := env.counter }
  | Except.ok (some row_reporte) =>
    let ids_raw := ((pySplitComma (pyGet row_reporte "imagenes_drive_ids" "")).map
      pyStrip).filter (fun s => !(s == ""))
    let ids := normalize_ids ids_raw
    let images := if ids.isEmpty then [] else download_images_by_ids env.download ids
    if env.templateExists = false then
      { resp := Resp.errTemplate, events := [], counter := env.counter }
    else
      let proyecto_id := flowProyectoId row_reporte
      if proyecto_id ≠ "" ∧ env.getProject proyecto_id = none then
        { resp := Resp.errProject, events := [], counter := env.counter }
      else
      let row := mergeRows (flowProjRow env row_reporte) row_reporte
      let responsable_val := flowResponsable row
      let rr := reserve_report_sequence env.counter env.ts responsable_val proyecto_id
      let rows := rr.2
      match rr.1 with
      | Except.error _ =>
        { resp := Resp.errSeq, events := [Ev.reserved], counter := some rows }
      | Except.ok seq =>
        let numero_informe := format_report_number env.year seq
          REPORTS_NUMBER_PREFIX REPORTS_NUMBER_PAD
        let row2 := ("numero_informe", numero_informe) :: row
        let _context := build_context env.resize row2 images
        let filename := flowFilename row2 numero_informe
        if env.renderOk = false then
          { resp := Resp.errRender, events := [Ev.reserved], counter := some rows }
        else if env.saveOk = false then
          { resp := Resp.errRender, events := [Ev.reserved, Ev.rendered],
            counter := some rows }
        else if env.appendOk then
          { resp := Resp.success filename numero_informe,
            events := [Ev.reserved, Ev.rendered, Ev.saved, Ev.appended],
            counter := some rows }
        else
          { resp := Resp.success filename numero_informe,
            events := [Ev.reserved, Ev.rendered, Ev.saved, Ev.warned],
            counter := some rows }


/-- The final counter-sheet rows after the flow's reservation. -/
def flowCounterRows (env : GenEnv) (row : Row) : SheetRows :=
  (reserve_report_sequence env.counter env.ts
    (flowResponsable (mergeRows (flowProjRow env row) row))
    (flowProyectoId row)).2

/-- The sequence number the flow's reservation returns. -/
def flowSeq (env : GenEnv) : Nat := (ensure_headers env.counter SEQ_HEADERS).length

/-- The report number the flow formats. -/
def flowNumero (env : GenEnv) : String :=
  format_report_number env.year (flowSeq env) REPORTS_NUMBER_PREFIX REPORTS_NUMBER_PAD

/-- The merged row after `row["numero_informe"] = numero_informe`. -/
def flowRow2 (env : GenEnv) (row : Row) : Row :=
  ("numero_informe", flowNumero env) :: mergeRows (flowProjRow env row) row

/-- A request environment whose report row exists and whose external
steps all succeed. -/
def envAllOk : GenEnv :=
  { readReport := Except.ok (some [])
    getProject := fun _ => none
    templateExists := true
    counter := none
    ts := "2024-01-01 00:00:00"
    year := 2024
    download := fun _ => none
    resize := id
    renderOk := true
    saveOk := true
    appendOk := true }

/-- A request environment in which only the final Reports-table append
fails. -/
def envAppendFails : GenEnv :=
  { readReport := Except.ok (some [])
    getProject := fun _ => none
    templateExists := true
    counter := none
    ts := "2024-01-01 00:00:00"
    year := 2024
    download := fun _ => none
    resize := id
    renderOk := true
    saveOk := true
    appendOk := false }

/-! ## Helper lemmas -/

lemma clamp_mem (p : ℚ) :
    0 ≤ max 0 (min 100 p) ∧ max 0 (min 100 p) ≤ 100 := by
  constructor
  · exact le_max_left 0 (min 100 p)
  · exact max_le (by norm_num) (min_le_left 100 p)

lemma clamp_idem (p : ℚ) :
    max 0 (min 100 (max 0 (min 100 p))) = max 0 (min 100 p) := by
  obtain ⟨h0, h100⟩ := clamp_mem p
  rw [min_eq_right h100, max_eq_right h0]

lemma clamp_150 : max 0 (min 100 (150 : ℚ)) = 100 := by norm_num

lemma clamp_neg5 : max 0 (min 100 (-5 : ℚ)) = 0 := by norm_num

lemma clamp_of_le_100_of_nonneg {p : ℚ} (h0 : 0 ≤ p) (h1 : p ≤ 100) :
    max 0 (min 100 p) = p := by
  rw [min_eq_right h1, max_eq_right h0]

/-! ## C3: report number formatter -/

/-- C3.  The report-number formatter is a pure function of its arguments
and the (explicitly passed) current year: it returns
`prefix-year-(seq zero-padded to pad digits)`; the padded segment has
width `max pad (digit count of seq)`, and the concrete instance
`format(seq = 7, prefix = "INF", pad = 5)` in year 2024 yields
`"INF-2024-00007"`. -/
theorem format_report_number_spec :
    format_report_number 2024 7 "INF" 5 = "INF-2024-00007" ∧
    (∀ year seq pfx pad,
      format_report_number year seq pfx pad
        = pfx ++ "-" ++ Nat.repr year ++ "-" ++
          String.mk (List.replicate (pad - (Nat.repr seq).length) '0' ++ (Nat.repr seq).data)) ∧
    (∀ pad seq, (pyZeroPad pad seq).length = max pad (Nat.repr seq).length) := by
  refine ⟨by decide, fun year seq pfx pad => rfl, fun pad seq => ?_⟩
  simp [pyZeroPad]
  omega

/-! ## C6: chart renderer clamps its input -/

/-- C6.  The chart renderer clamps its percentage input to `[0, 100]`
before any use and never rejects a value: rendering any `p` is identical
to rendering the clamped `p`, `render 150` coincides with `render 100`
(with remainder segment `0`), `render (-5)` coincides with `render 0`,
and the output file path encodes the integer-truncated clamped
percentage. -/
theorem generar_grafico_clamp_spec :
    (∀ p n, generar_grafico_cumplimiento p n
        = generar_grafico_cumplimiento (max 0 (min 100 p)) n) ∧
    (∀ n, generar_grafico_cumplimiento 150 n = generar_grafico_cumplimiento 100 n) ∧
    (∀ n, (generar_grafico_cumplimiento 150 n).valores = [100, 0]) ∧
    (∀ n, generar_grafico_cumplimiento (-5) n = generar_grafico_cumplimiento 0 n) ∧
    (∀ p n, (generar_grafico_cumplimiento p n).file_path
        = OUTPUT_DIR ++ "/" ++ n ++ "_" ++ toString (pyTruncInt (max 0 (min 100 p))) ++ ".png") := by
  have hgen : ∀ p n, generar_grafico_cumplimiento p n
      = generar_grafico_cumplimiento (max 0 (min 100 p)) n := by
    intro p n
    simp only [generar_grafico_cumplimiento, clamp_idem]
  refine ⟨hgen, fun n => ?_, fun n => ?_, fun n => ?_, fun p n => rfl⟩
  · rw [hgen 150 n, hgen 100 n, clamp_150, clamp_of_le_100_of_nonneg (by norm_num) (by norm_num)]
  · rw [hgen 150 n]
    simp only [generar_grafico_cumplimiento, clamp_150]
    norm_num
  · rw [hgen (-5) n, hgen 0 n, clamp_neg5, clamp_of_le_100_of_nonneg le_rfl (by norm_num)]

/-! ## C1: reservation returns 1..N from an empty counter table -/

lemma reserve_from_none (ts r p : String) :
    reserve_report_sequence none ts r p
      = (Except.ok 1, [SEQ_HEADERS, [ts, r, p]]) := rfl

lemma reserve_from_headers (rs : SheetRows) (ts r p : String) :
    reserve_report_sequence (some (SEQ_HEADERS :: rs)) ts r p
      = (Except.ok (rs.length + 1), SEQ_HEADERS :: (rs ++ [[ts, r, p]])) := by
  simp [reserve_report_sequence, ensure_headers, SEQ_HEADERS]

lemma runReserves_from_headers (ps : List (String × String × String)) :
    ∀ rs : SheetRows,
      runReserves (some (SEQ_HEADERS :: rs)) ps
        = (List.range' (rs.length + 1) ps.length,
           some (SEQ_HEADERS :: (rs ++ ps.map rowOf))) := by
  induction ps with
  | nil => intro rs; simp [runReserves]
  | cons q ps ih =>
    intro rs
    unfold runReserves
    rw [reserve_from_headers]
    simp only []
    rw [show rs ++ [[q.1, q.2.1, q.2.2]] = rs ++ [rowOf q] from rfl, ih (rs ++ [rowOf q])]
    simp [List.range'_succ, List.length_append, rowOf]

/-- C1.  For every sequence of `N` single-threaded reservation calls
against an initially absent/empty counter table, the returned sequence
numbers are exactly `1, 2, ..., N` (`List.range' 1 N`) in call order,
and the final table consists of the header row followed by one data row
per call. -/
theorem reservation_sequence_numbers :
    (∀ ps, (runReserves none ps).1 = List.range' 1 ps.length) ∧
    (∀ q ps, (runReserves none (q :: ps)).2
        = some (SEQ_HEADERS :: (q :: ps).map rowOf)) := by
  have step : ∀ q ps, runReserves none (q :: ps)
      = (1 :: (List.range' 2 ps.length), some (SEQ_HEADERS :: (rowOf q :: ps.map rowOf))) := by
    intro q ps
    unfold runReserves
    rw [reserve_from_none]
    simp only []
    rw [show ([[q.1, q.2.1, q.2.2]] : SheetRows) = [rowOf q] from rfl]
    rw [show (SEQ_HEADERS :: [rowOf q] : SheetRows) = SEQ_HEADERS :: ([rowOf q] : SheetRows) from rfl]
    rw [runReserves_from_headers ps [rowOf q]]
    simp
  constructor
  · intro ps
    cases ps with
    | nil => rfl
    | cons q ps =>
      rw [step q ps]
      simp [List.range'_succ]
  · intro q ps
    rw [step q ps]
    simp

/-! ## C2: sequence error condition and its place in the flow -/

lemma ensure_headers_length_pos (st : CounterState) (headers : List String) :
    1 ≤ (ensure_headers st headers).length := by
  unfold ensure_headers
  split
  · simp
  · split <;> simp

lemma generar_events_cases (env : GenEnv) (id : String) :
    (generar_desde_sheet env id).events = [] ∨
    (generar_desde_sheet env id).events = [Ev.reserved] ∨
    (generar_desde_sheet env id).events = [Ev.reserved, Ev.rendered] ∨
    (generar_desde_sheet env id).events = [Ev.reserved, Ev.rendered, Ev.saved, Ev.appended] ∨
    (generar_desde_sheet env id).events = [Ev.reserved, Ev.rendered, Ev.saved, Ev.warned] := by
  rcases hrr : env.readReport with e | orow
  · simp [generar_desde_sheet, hrr]
  · rcases orow with _ | row
    · simp [generar_desde_sheet, hrr]
    · by_cases ht : env.templateExists = false
      · simp [generar_desde_sheet, hrr, ht]
      · by_cases hproj : ¬ flowProyectoId row = "" ∧ env.getProject (flowProyectoId row) = none
        · simp [generar_desde_sheet, hrr, ht, hproj]
        · rcases hres : reserve_report_sequence env.counter env.ts
            (flowResponsable (mergeRows (flowProjRow env row) row))
            (flowProyectoId row) with ⟨res, rows⟩
          rcases res with e2 | seq
          · simp [generar_desde_sheet, hrr, ht, hproj, hres]
          · by_cases hr : env.renderOk = false
            · simp [generar_desde_sheet, hrr, ht, hproj, hres, hr]
            · by_cases hsv : env.saveOk = false
              · simp [generar_desde_sheet, hrr, ht, hproj, hres, hr, hsv]
              · by_cases ha : env.appendOk <;>
                  simp [generar_desde_sheet, hrr, ht, hproj, hres, hr, hsv, ha]

/-- C2.  The reservation signals its fatal error exactly when the
computed sequence (row count after the append, minus one) is less than
one; that computed sequence is in fact always at least one; and in the
generation flow the reservation strictly precedes template rendering and
file saving: a trace containing a render or save event starts with the
reservation event, and a request that failed with the sequence error has
rendered and saved nothing. -/
theorem sequence_error_spec :
    (∀ st ts r p,
      exceptIsError (reserve_report_sequence st ts r p).1 = true ↔
        (ensure_headers st SEQ_HEADERS ++ [[ts, r, p]]).length - 1 < 1) ∧
    (∀ st ts r p, ¬ (ensure_headers st SEQ_HEADERS ++ [[ts, r, p]]).length - 1 < 1) ∧
    (∀ env id, (Ev.rendered ∈ (generar_desde_sheet env id).events ∨
        Ev.saved ∈ (generar_desde_sheet env id).events) →
      ∃ tl, (generar_desde_sheet env id).events = Ev.reserved :: tl) ∧
    (∀ env id, (generar_desde_sheet env id).resp = Resp.errSeq →
      Ev.rendered ∉ (generar_desde_sheet env id).events ∧
      Ev.saved ∉ (generar_desde_sheet env id).events) := by
  refine ⟨fun st ts r p => ?_, fun st ts r p => ?_, fun env id h => ?_, fun env id h => ?_⟩
  · by_cases hc : ensure_headers st SEQ_HEADERS = []
    · simp [reserve_report_sequence, exceptIsError, hc]
    · simp [reserve_report_sequence, exceptIsError, hc]
  · have := ensure_headers_length_pos st SEQ_HEADERS
    simp only [List.length_append, List.length_singleton]
    omega
  · rcases generar_events_cases env id with hc | hc | hc | hc | hc <;>
      rw [hc] at h ⊢ <;> simp_all
  · rcases hrr : env.readReport with e | orow
    · simp [generar_desde_sheet, hrr] at h
    · rcases orow with _ | row
      · simp [generar_desde_sheet, hrr] at h
      · by_cases ht : env.templateExists = false
        · simp [generar_desde_sheet, hrr, ht] at h
        · by_cases hproj : ¬ flowProyectoId row = "" ∧ env.getProject (flowProyectoId row) = none
          · simp [generar_desde_sheet, hrr, ht, hproj] at h
          · rcases hres : reserve_report_sequence env.counter env.ts
              (flowResponsable (mergeRows (flowProjRow env row) row))
              (flowProyectoId row) with ⟨res, rows⟩
            rcases res with e2 | seq
            · simp [generar_desde_sheet, hrr, ht, hproj, hres]
            · by_cases hr : env.renderOk = false
              · simp [generar_desde_sheet, hrr, ht, hproj, hres, hr] at h
              · by_cases hsv : env.saveOk = false
                · simp [generar_desde_sheet, hrr, ht, hproj, hres, hr, hsv] at h
                · by_cases ha : env.appendOk <;>
                    simp [generar_desde_sheet, hrr, ht, hproj, hres, hr, hsv, ha] at h


/-! ## C9: the registry append happens last and is non-fatal -/

lemma ensure_headers_ne_nil (st : CounterState) (headers : List String) :
    ensure_headers st headers ≠ [] := by
  have h := ensure_headers_length_pos st headers
  intro hco
  rw [hco] at h
  simp at h

lemma reserve_fst_is_ok (st : CounterState) (ts r p : String) :
    (reserve_report_sequence st ts r p).1
      = Except.ok ((ensure_headers st SEQ_HEADERS).length) := by
  have hne := ensure_headers_ne_nil st SEQ_HEADERS
  simp [reserve_report_sequence, hne]

/-- Once the flow has found a report row and the template exists, its
result is fully determined by the render/save/append outcomes. -/
lemma generar_reached (env : GenEnv) (id : String) (row : Row)
    (hrr : env.readReport = Except.ok (some row))
    (ht : env.templateExists = true)
    (hp : ¬ (flowProyectoId row ≠ "" ∧ env.getProject (flowProyectoId row) = none)) :
    generar_desde_sheet env id =
      if env.renderOk = false then
        { resp := Resp.errRender, events := [Ev.reserved],
          counter := some (flowCounterRows env row) }
      else if env.saveOk = false then
        { resp := Resp.errRender, events := [Ev.reserved, Ev.rendered],
          counter := some (flowCounterRows env row) }
      else if env.appendOk then
        { resp := Resp.success (flowFilename (flowRow2 env row) (flowNumero env)) (flowNumero env),
          events := [Ev.reserved, Ev.rendered, Ev.saved, Ev.appended],
          counter := some (flowCounterRows env row) }
      else
        { resp := Resp.success (flowFilename (flowRow2 env row) (flowNumero env)) (flowNumero env),
          events := [Ev.reserved, Ev.rendered, Ev.saved, Ev.warned],
          counter := some (flowCounterRows env row) } := by
  have hfst := reserve_fst_is_ok env.counter env.ts
    (flowResponsable (mergeRows (flowProjRow env row) row)) (flowProyectoId row)
  rcases hres : reserve_report_sequence env.counter env.ts
    (flowResponsable (mergeRows (flowProjRow env row) row))
    (flowProyectoId row) with ⟨res, rows⟩
  rw [hres] at hfst
  simp only at hfst
  subst hfst
  by_cases hr : env.renderOk = false
  · simp [generar_desde_sheet, hrr, ht, hp, hres, hr, flowCounterRows]
  · by_cases hsv : env.saveOk = false
    · simp [generar_desde_sheet, hrr, ht, hp, hres, hr, hsv, flowCounterRows]
    · by_cases ha : env.appendOk <;>
        simp [generar_desde_sheet, hrr, ht, hp, hres, hr, hsv, ha, flowCounterRows,
          flowRow2, flowNumero, flowSeq]

/-- C9.  In a generation flow that reaches the reservation (report row
found, template present, project merge succeeded), the permanent
Reports-table entry is appended only after render and save succeed: when rendering or saving
fails the caller gets the render error, nothing is appended to the
Reports table, and the counter sheet keeps the reserved row (no
rollback); when only the post-render append fails, the flow still
answers success, logs a warning, and no Reports-table entry exists; and
an append event can only occur at the end of the full
reserve-render-save trace. -/
theorem registry_append_protocol :
    ∀ env id row, env.readReport = Except.ok (some row) →
      env.templateExists = true →
      ¬ (flowProyectoId row ≠ "" ∧ env.getProject (flowProyectoId row) = none) →
      ((env.renderOk = false ∨ env.saveOk = false) →
        (generar_desde_sheet env id).resp = Resp.errRender ∧
        Ev.appended ∉ (generar_desde_sheet env id).events ∧
        (generar_desde_sheet env id).counter = some (flowCounterRows env row)) ∧
      (env.renderOk = true → env.saveOk = true → env.appendOk = false →
        (∃ fn num, (generar_desde_sheet env id).resp = Resp.success fn num) ∧
        Ev.appended ∉ (generar_desde_sheet env id).events ∧
        Ev.warned ∈ (generar_desde_sheet env id).events) ∧
      (Ev.appended ∈ (generar_desde_sheet env id).events →
        (generar_desde_sheet env id).events
          = [Ev.reserved, Ev.rendered, Ev.saved, Ev.appended]) := by
  intro env id row hrr ht hp
  have hgen := generar_reached env id row hrr ht hp
  refine ⟨?_, ?_, ?_⟩
  · intro hfail
    rcases hfail with hrf | hsf
    · rw [hgen]
      simp [hrf]
    · by_cases hrf : env.renderOk = false
      · rw [hgen]
        simp [hrf]
      · rw [hgen]
        simp [hrf, hsf]
  · intro hr hs ha
    rw [hgen]
    rw [if_neg (by simp [hr]), if_neg (by simp [hs]), if_neg (by simp [ha])]
    exact ⟨⟨_, _, rfl⟩, by simp, by simp⟩
  · intro hap
    rw [hgen] at hap ⊢
    by_cases hr : env.renderOk = false
    · simp [hr] at hap
    · by_cases hs : env.saveOk = false
      · simp [hr, hs] at hap
      · by_cases ha : env.appendOk
        · simp [hr, hs, ha]
        · simp [hr, hs, ha] at hap

/-- Witness for C9 at a concrete environment in which only the
post-render registry append fails. -/
theorem registry_append_protocol_witness :
    (∃ fn num, (generar_desde_sheet envAppendFails "X").resp = Resp.success fn num) ∧
    Ev.appended ∉ (generar_desde_sheet envAppendFails "X").events ∧
    Ev.warned ∈ (generar_desde_sheet envAppendFails "X").events :=
  (registry_append_protocol envAppendFails "X" [] rfl rfl (by decide)).2.1 rfl rfl rfl

/-- Witness for C2 at a concrete environment in which the document is
rendered: its trace begins with the reservation event. -/
theorem sequence_error_spec_witness :
    ∃ tl, (generar_desde_sheet envAllOk "X").events = Ev.reserved :: tl :=
  sequence_error_spec.2.2.1 envAllOk "X" (Or.inl (by decide))


/-! ## C7: context builder and merge precedence -/

lemma lookup_append (l1 l2 : Row) (k : String) :
    List.lookup k (l1 ++ l2) = (List.lookup k l1).orElse (fun _ => List.lookup k l2) := by
  induction l1 with
  | nil => simp [List.lookup]
  | cons a t ih =>
    rcases a with ⟨ka, va⟩
    by_cases h : (k == ka)
    · simp [List.lookup, h]
    · simp [List.lookup, h, ih]

/-- C7.  The context builder works on the project-then-report merge:
every textual context field equals the merged row's value with an
empty-string default (so the builder is total and never fails on a
missing optional field); a report-row binding wins on a shared key, and
with no report-side binding the project-row value survives; a key absent
from the merged row yields the empty string. -/
theorem build_context_merge_spec :
    (∀ rz p r imgs k, k ∈ contextTextKeys →
      ctxGet (build_context rz (mergeRows p r) imgs) k = pyGet (mergeRows p r) k "") ∧
    (∀ rz p r imgs y, List.lookup "area" r = some y →
      (build_context rz (mergeRows p r) imgs).area = y) ∧
    (∀ rz p r imgs x, List.lookup "area" r = none → List.lookup "area" p = some x →
      (build_context rz (mergeRows p r) imgs).area = x) ∧
    (∀ rz row imgs k, k ∈ contextTextKeys → List.lookup k row = none →
      ctxGet (build_context rz row imgs) k = "") := by
  have hmain : ∀ rz row imgs k, k ∈ contextTextKeys →
      ctxGet (build_context rz row imgs) k = pyGet row k "" := by
    intro rz row imgs k hk
    simp only [contextTextKeys, List.mem_cons, List.not_mem_nil, or_false] at hk
    rcases hk with rfl|rfl|rfl|rfl|rfl|rfl|rfl|rfl|rfl|rfl|rfl|rfl|rfl|rfl|rfl|rfl|rfl|rfl|rfl|rfl|rfl|rfl <;>
      rfl
  refine ⟨fun rz p r imgs k hk => hmain rz (mergeRows p r) imgs k hk, ?_, ?_, ?_⟩
  · intro rz p r imgs y hy
    show pyGet (mergeRows p r) "area" "" = y
    simp [pyGet, mergeRows, lookup_append, hy]
  · intro rz p r imgs x hr hp
    show pyGet (mergeRows p r) "area" "" = x
    simp [pyGet, mergeRows, lookup_append, hr, hp]
  · intro rz row imgs k hk hnone
    rw [hmain rz row imgs k hk]
    simp [pyGet, hnone]

/-- Witness for C7: with a project row carrying `area = "X"`, a report
row carrying `area = "Y"` wins, and an absent report-side `area` lets
`"X"` survive. -/
theorem build_context_merge_spec_witness :
    (build_context id (mergeRows [("area", "X")] [("area", "Y")]) []).area = "Y" ∧
    (build_context id (mergeRows [("area", "X")] []) []).area = "X" :=
  ⟨build_context_merge_spec.2.1 id [("area", "X")] [("area", "Y")] [] "Y" (by decide),
   build_context_merge_spec.2.2.1 id [("area", "X")] [] [] "X" (by decide) (by decide)⟩

/-! ## C8: per-identifier downloads, failures skipped, no retries -/

lemma download_images_loop_eq (dl : String → Option Blob) :
    ∀ ids, download_images_loop dl ids
      = ((ids.filter (fun s => !(s == ""))).filterMap dl,
         ids.filter (fun s => !(s == ""))) := by
  intro ids
  induction ids with
  | nil => rfl
  | cons fid rest ih =>
    by_cases h : fid = ""
    · simp [download_images_loop, h, ih]
    · rcases hdl : dl fid with _ | b <;>
        simp [download_images_loop, h, hdl, ih]

/-- C8.  The image fetch attempts each non-empty identifier
independently and exactly once (no retries), silently skips every
failed download, returns the successfully downloaded blobs in input
order, and the generation flow's outcome does not depend on the download
oracle at all, so a partial or empty image set never changes the
response. -/
theorem download_images_spec :
    (∀ dl ids, download_images_by_ids dl ids
        = (ids.filter (fun s => !(s == ""))).filterMap dl) ∧
    (∀ dl ids, (download_images_loop dl ids).2 = ids.filter (fun s => !(s == ""))) ∧
    (∀ (env : GenEnv) (id : String) (d1 d2 : String → Option Blob),
      generar_desde_sheet { env with download := d1 } id
        = generar_desde_sheet { env with download := d2 } id) := by
  refine ⟨fun dl ids => ?_, fun dl ids => ?_, fun env id d1 d2 => rfl⟩
  · rw [download_images_by_ids, download_images_loop_eq]
  · rw [download_images_loop_eq]


/-! ## C4: identifier extraction policy -/

lemma takeWhile_all {α : Type} (p : α → Bool) : ∀ l : List α, (l.takeWhile p).all p = true := by
  intro l
  induction l with
  | nil => rfl
  | cons a t ih =>
    by_cases h : p a
    · simp [List.takeWhile_cons, h, ih]
    · simp [List.takeWhile_cons, h]

lemma tryMatchD_some {l r : List Char} (h : tryMatchD l = some r) :
    20 ≤ r.length ∧ r.all isIdChar = true := by
  rcases l with _ | ⟨a, _ | ⟨b, _ | ⟨c, rest⟩⟩⟩
  · simp [tryMatchD] at h
  · simp [tryMatchD] at h
  · simp [tryMatchD] at h
  · simp only [tryMatchD] at h
    by_cases habc : a = '/' ∧ b = 'd' ∧ c = '/'
    · rw [if_pos habc] at h
      by_cases hlen : 20 ≤ (rest.takeWhile isIdChar).length
      · rw [if_pos hlen] at h
        rcases hdrop : rest.dropWhile isIdChar with _ | ⟨d, tail⟩
        · rw [hdrop] at h
          simp at h
        · rw [hdrop] at h
          by_cases hd : d = '/'
          · simp only [hd, if_pos rfl] at h
            have hr : r = rest.takeWhile isIdChar := by
              cases h
              rfl
            subst hr
            exact ⟨hlen, takeWhile_all isIdChar rest⟩
          · simp [hd] at h
      · rw [if_neg hlen] at h
        simp at h
    · rw [if_neg habc] at h
      simp at h

lemma tryMatchQ_some {l r : List Char} (h : tryMatchQ l = some r) :
    20 ≤ r.length ∧ r.all isIdChar = true := by
  rcases l with _ | ⟨a, _ | ⟨b, _ | ⟨c, _ | ⟨d, rest⟩⟩⟩⟩
  · simp [tryMatchQ] at h
  · simp [tryMatchQ] at h
  · simp [tryMatchQ] at h
  · simp [tryMatchQ] at h
  · simp only [tryMatchQ] at h
    by_cases habc : (a = '?' ∨ a = '&') ∧ b = 'i' ∧ c = 'd' ∧ d = '='
    · rw [if_pos habc] at h
      by_cases hlen : 20 ≤ (rest.takeWhile isIdChar).length
      · rw [if_pos hlen] at h
        have hr : r = rest.takeWhile isIdChar := by
          cases h
          rfl
        subst hr
        exact ⟨hlen, takeWhile_all isIdChar rest⟩
      · rw [if_neg hlen] at h
        simp at h
    · rw [if_neg habc] at h
      simp at h

lemma searchD_some : ∀ {l r : List Char}, searchD l = some r →
    20 ≤ r.length ∧ r.all isIdChar = true := by
  intro l
  induction l with
  | nil =>
    intro r h
    simp [searchD] at h
  | cons c cs ih =>
    intro r h
    rcases htm : tryMatchD (c :: cs) with _ | r2
    · rw [searchD, htm] at h
      exact ih h
    · rw [searchD, htm] at h
      cases h
      exact tryMatchD_some htm

lemma searchQ_some : ∀ {l r : List Char}, searchQ l = some r →
    20 ≤ r.length ∧ r.all isIdChar = true := by
  intro l
  induction l with
  | nil =>
    intro r h
    simp [searchQ] at h
  | cons c cs ih =>
    intro r h
    rcases htm : tryMatchQ (c :: cs) with _ | r2
    · rw [searchQ, htm] at h
      exact ih h
    · rw [searchQ, htm] at h
      cases h
      exact tryMatchQ_some htm

lemma idRawFullmatch_of {r : List Char} (h1 : 20 ≤ r.length)
    (h2 : r.all isIdChar = true) : idRawFullmatch r = true := by
  simp [idRawFullmatch, h1, h2]

/-- C4.  Identifier extraction follows the documented policy in order:
a whole trimmed string of bare-identifier shape is returned as-is;
otherwise the first match of the `/d/<id>/` pattern, then of the
`?id=` / `&id=` pattern, is returned; otherwise the result is empty.
The spec's three concrete examples evaluate as claimed. -/
theorem extract_id_policy :
    (∀ s : String, idRawFullmatch (pyStripList s.data) = true →
      extract_id_from_url s = String.mk (pyStripList s.data)) ∧
    (∀ (s : String) (r : List Char), idRawFullmatch (pyStripList s.data) = false →
      searchD (pyStripList s.data) = some r →
      extract_id_from_url s = String.mk r) ∧
    (∀ (s : String) (r : List Char), idRawFullmatch (pyStripList s.data) = false →
      searchD (pyStripList s.data) = none →
      searchQ (pyStripList s.data) = some r →
      extract_id_from_url s = String.mk r) ∧
    (∀ s : String, idRawFullmatch (pyStripList s.data) = false →
      searchD (pyStripList s.data) = none →
      searchQ (pyStripList s.data) = none →
      extract_id_from_url s = "") ∧
    extract_id_from_url
      "https://drive.example.com/file/d/ABCDEFGHIJ0123456789/view?usp=sharing"
      = "ABCDEFGHIJ0123456789" ∧
    extract_id_from_url "plain-id-ABCDEFGHIJ0123456789"
      = "plain-id-ABCDEFGHIJ0123456789" ∧
    extract_id_from_url "short" = "" := by
  refine ⟨?_, ?_, ?_, ?_, by decide, by decide, by decide⟩
  · intro s h
    have hne : (pyStripList s.data).isEmpty = false := by
      rcases hl : pyStripList s.data with _ | ⟨c, t⟩
      · rw [hl] at h
        simp [idRawFullmatch] at h
      · simp
    simp [extract_id_from_url, extractAux, hne, h]
  · intro s r hf hD
    have hne : (pyStripList s.data).isEmpty = false := by
      rcases hl : pyStripList s.data with _ | ⟨c, t⟩
      · rw [hl] at hD
        simp [searchD] at hD
      · simp
    simp [extract_id_from_url, extractAux, hne, hf, hD]
  · intro s r hf hD hQ
    have hne : (pyStripList s.data).isEmpty = false := by
      rcases hl : pyStripList s.data with _ | ⟨c, t⟩
      · rw [hl] at hQ
        simp [searchQ] at hQ
      · simp
    simp [extract_id_from_url, extractAux, hne, hf, hD, hQ]
  · intro s hf hD hQ
    by_cases hne : (pyStripList s.data).isEmpty = true
    · simp [extract_id_from_url, extractAux, hne]
    · simp only [Bool.not_eq_true] at hne
      simp [extract_id_from_url, extractAux, hne, hf, hD, hQ]

/-- Witness for C4 applying each policy clause at a concrete input. -/
theorem extract_id_policy_witness :
    extract_id_from_url "plain-id-ABCDEFGHIJ0123456789"
        = String.mk (pyStripList "plain-id-ABCDEFGHIJ0123456789".data) ∧
    extract_id_from_url
        "https://drive.example.com/file/d/ABCDEFGHIJ0123456789/view?usp=sharing"
        = String.mk "ABCDEFGHIJ0123456789".data ∧
    extract_id_from_url "short" = "" :=
  ⟨extract_id_policy.1 "plain-id-ABCDEFGHIJ0123456789" (by decide),
   extract_id_policy.2.1
     "https://drive.example.com/file/d/ABCDEFGHIJ0123456789/view?usp=sharing"
     "ABCDEFGHIJ0123456789".data (by decide) (by decide),
   extract_id_policy.2.2.2.1 "short" (by decide) (by decide) (by decide)⟩


/-! ## C5: normalization keeps order, drops failures, dedups first-seen -/

lemma mem_dedupAux : ∀ (l seen : List String) (x : String),
    x ∈ dedupAux seen l ↔ x ∈ l ∧ x ∉ seen := by
  intro l
  induction l with
  | nil => simp [dedupAux]
  | cons a t ih =>
    intro seen x
    by_cases ha : a ∈ seen
    · rw [show dedupAux seen (a :: t) = dedupAux seen t from by simp [dedupAux, ha]]
      rw [ih]
      simp only [List.mem_cons]
      by_cases hxa : x = a
      · subst hxa
        tauto
      · tauto
    · rw [show dedupAux seen (a :: t) = a :: dedupAux (a :: seen) t from by
        simp [dedupAux, ha]]
      simp only [List.mem_cons, ih]
      by_cases hxa : x = a
      · subst hxa
        tauto
      · tauto

lemma nodup_dedupAux : ∀ (l seen : List String), (dedupAux seen l).Nodup := by
  intro l
  induction l with
  | nil =>
    intro seen
    simp [dedupAux]
  | cons a t ih =>
    intro seen
    by_cases ha : a ∈ seen
    · rw [show dedupAux seen (a :: t) = dedupAux seen t from by simp [dedupAux, ha]]
      exact ih seen
    · rw [show dedupAux seen (a :: t) = a :: dedupAux (a :: seen) t from by
        simp [dedupAux, ha]]
      refine List.nodup_cons.mpr ⟨?_, ih (a :: seen)⟩
      intro hc
      rw [mem_dedupAux] at hc
      exact hc.2 (List.mem_cons_self a seen)

lemma dedupAux_sublist : ∀ (l seen : List String), (dedupAux seen l).Sublist l := by
  intro l
  induction l with
  | nil =>
    intro seen
    simp [dedupAux]
  | cons a t ih =>
    intro seen
    by_cases ha : a ∈ seen
    · rw [show dedupAux seen (a :: t) = dedupAux seen t from by simp [dedupAux, ha]]
      exact (ih seen).trans (List.sublist_cons_self a t)
    · rw [show dedupAux seen (a :: t) = a :: dedupAux (a :: seen) t from by
        simp [dedupAux, ha]]
      exact (ih (a :: seen)).cons₂ a

lemma dedupAux_eq_self : ∀ l seen : List String, l.Nodup → (∀ x ∈ l, x ∉ seen) →
    dedupAux seen l = l := by
  intro l
  induction l with
  | nil =>
    intro seen _ _
    rfl
  | cons a t ih =>
    intro seen hnd hdisj
    have ha : a ∉ seen := hdisj a (List.mem_cons_self a t)
    rw [show dedupAux seen (a :: t) = a :: dedupAux (a :: seen) t from by
      simp [dedupAux, ha]]
    congr 1
    refine ih (a :: seen) (List.nodup_cons.mp hnd).2 ?_
    intro x hx
    intro hc
    rcases List.mem_cons.mp hc with rfl | hc2
    · exact (List.nodup_cons.mp hnd).1 hx
    · exact hdisj x (List.mem_cons_of_mem a hx) hc2

/-- C5.  Normalization maps every raw string through identifier
extraction, drops the strings yielding no identifier, preserves order
(the result is a sublist of the extracted list with exactly its
elements), contains no duplicates, and keeps the first occurrence: an
input whose extracted identifiers are `[A, B, A, C]` yields
`[A, B, C]`. -/
theorem normalize_ids_spec :
    (∀ xs, (normalize_ids xs).Nodup) ∧
    (∀ xs, (normalize_ids xs).Sublist
        ((xs.map extract_id_from_url).filter (fun s => !(s == "")))) ∧
    (∀ xs x, x ∈ normalize_ids xs ↔
        x ∈ (xs.map extract_id_from_url).filter (fun s => !(s == ""))) ∧
    (∀ xs a b c, a ≠ b → a ≠ c → b ≠ c →
      (xs.map extract_id_from_url).filter (fun s => !(s == "")) = [a, b, a, c] →
      normalize_ids xs = [a, b, c]) := by
  refine ⟨fun xs => nodup_dedupAux _ _, fun xs => dedupAux_sublist _ _,
    fun xs x => ?_, ?_⟩
  · show x ∈ dedupAux [] ((xs.map extract_id_from_url).filter (fun s => !(s == ""))) ↔ _
    rw [mem_dedupAux]
    simp
  · intro xs a b c hab hac hbc hl
    show dedupAux [] ((xs.map extract_id_from_url).filter (fun s => !(s == ""))) = _
    rw [hl]
    simp [dedupAux, Ne.symm hab, Ne.symm hac, Ne.symm hbc]

/-- Witness for C5 on four bare identifiers with one duplicate. -/
theorem normalize_ids_spec_witness :
    normalize_ids ["AAAAAAAAAAAAAAAAAAAA", "BBBBBBBBBBBBBBBBBBBB",
        "AAAAAAAAAAAAAAAAAAAA", "CCCCCCCCCCCCCCCCCCCC"]
      = ["AAAAAAAAAAAAAAAAAAAA", "BBBBBBBBBBBBBBBBBBBB", "CCCCCCCCCCCCCCCCCCCC"] :=
  normalize_ids_spec.2.2.2
    ["AAAAAAAAAAAAAAAAAAAA", "BBBBBBBBBBBBBBBBBBBB",
     "AAAAAAAAAAAAAAAAAAAA", "CCCCCCCCCCCCCCCCCCCC"]
    "AAAAAAAAAAAAAAAAAAAA" "BBBBBBBBBBBBBBBBBBBB" "CCCCCCCCCCCCCCCCCCCC"
    (by decide) (by decide) (by decide) (by decide)


/-! ## C10: normalization is idempotent -/

lemma idChar_not_space {c : Char} (h : isIdChar c = true) : isPySpace c = false := by
  cases hs : isPySpace c
  · rfl
  · exfalso
    have hmem : ((((c = ' ' ∨ c = '\t') ∨ c = '\n') ∨ c = '\r') ∨ c = '\x0b') ∨ c = '\x0c' := by
      simpa [isPySpace, Bool.or_eq_true, beq_iff_eq] using hs
    rcases hmem with ((((rfl | rfl) | rfl) | rfl) | rfl) | rfl <;> exact absurd h (by decide)

lemma dropWhile_space_of_all_id {l : List Char} (h : l.all isIdChar = true) :
    l.dropWhile isPySpace = l := by
  cases l with
  | nil => rfl
  | cons c t =>
    have hc : isIdChar c = true := by
      simp [List.all_cons] at h
      exact h.1
    simp [List.dropWhile_cons, idChar_not_space hc]

lemma strip_of_all_id {l : List Char} (h : l.all isIdChar = true) :
    pyStripList l = l := by
  unfold pyStripList
  rw [dropWhile_space_of_all_id h]
  rw [dropWhile_space_of_all_id (by simpa [List.all_reverse] using h)]
  simp

lemma extractAux_of_fullmatch {l : List Char} (h : idRawFullmatch l = true) :
    extractAux l = l := by
  have hparts : 20 ≤ l.length ∧ l.all isIdChar = true := by
    simpa [idRawFullmatch, Bool.and_eq_true] using h
  have hs : pyStripList l = l := strip_of_all_id hparts.2
  have hne : l.isEmpty = false := by
    rcases hl : l with _ | ⟨c, t⟩
    · rw [hl] at hparts
      simp at hparts
    · simp
  simp [extractAux, hs, hne, h]

lemma extractAux_bare : ∀ l : List Char, extractAux l ≠ [] →
    idRawFullmatch (extractAux l) = true := by
  intro l h
  by_cases hne : (pyStripList l).isEmpty = true
  · exfalso
    apply h
    simp [extractAux, hne]
  · simp only [Bool.not_eq_true] at hne
    by_cases hf : idRawFullmatch (pyStripList l) = true
    · rw [show extractAux l = pyStripList l from by simp [extractAux, hne, hf]]
      exact hf
    · simp only [Bool.not_eq_true] at hf
      rcases hD : searchD (pyStripList l) with _ | r
      · rcases hQ : searchQ (pyStripList l) with _ | r
        · exfalso
          apply h
          simp [extractAux, hne, hf, hD, hQ]
        · rw [show extractAux l = r from by simp [extractAux, hne, hf, hD, hQ]]
          have hp := searchQ_some hQ
          exact idRawFullmatch_of hp.1 hp.2
      · rw [show extractAux l = r from by simp [extractAux, hne, hf, hD]]
        have hp := searchD_some hD
        exact idRawFullmatch_of hp.1 hp.2

lemma extract_nonempty_bare (s : String) (h : extract_id_from_url s ≠ "") :
    idRawFullmatch (extract_id_from_url s).data = true := by
  have hne : extractAux s.data ≠ [] := by
    intro hc
    apply h
    simp [extract_id_from_url, hc]
  exact extractAux_bare s.data hne

lemma extract_of_bare (s : String) (h : idRawFullmatch s.data = true) :
    extract_id_from_url s = s := by
  rw [extract_id_from_url, extractAux_of_fullmatch h]

/-- C10.  Normalization is idempotent: every identifier it emits is
itself of bare-identifier shape and re-extracts to itself, the filter
keeps it, and deduplicating an already duplicate-free list is the
identity, so `normalize_ids (normalize_ids xs) = normalize_ids xs`. -/
theorem normalize_ids_idempotent :
    ∀ xs, normalize_ids (normalize_ids xs) = normalize_ids xs := by
  intro xs
  have hmem : ∀ x ∈ normalize_ids xs, x ≠ "" ∧ extract_id_from_url x = x := by
    intro x hx
    have hx' : x ∈ (xs.map extract_id_from_url).filter (fun s => !(s == "")) := by
      have hm : x ∈ dedupAux []
          ((xs.map extract_id_from_url).filter (fun s => !(s == ""))) := hx
      rw [mem_dedupAux] at hm
      exact hm.1
    have hne : x ≠ "" := by
      have hp := List.of_mem_filter hx'
      simpa using hp
    refine ⟨hne, ?_⟩
    have hxm : x ∈ xs.map extract_id_from_url := List.mem_of_mem_filter hx'
    rcases List.mem_map.mp hxm with ⟨y, _, rfl⟩
    exact extract_of_bare _ (extract_nonempty_bare _ hne)
  have hmap : (normalize_ids xs).map extract_id_from_url = normalize_ids xs := by
    have hcong : (normalize_ids xs).map extract_id_from_url
        = (normalize_ids xs).map id :=
      List.map_congr_left (fun x hx => (hmem x hx).2)
    simpa using hcong
  have hfilter : ((normalize_ids xs).map extract_id_from_url).filter
      (fun s => !(s == "")) = normalize_ids xs := by
    rw [hmap]
    refine List.filter_eq_self.mpr ?_
    intro a ha
    simpa using (hmem a ha).1
  show dedupAux [] (((normalize_ids xs).map extract_id_from_url).filter
    (fun s => !(s == ""))) = normalize_ids xs
  rw [hfilter]
  exact dedupAux_eq_self _ [] (nodup_dedupAux _ _) (by simp)


end Dalgoro

